import Mathlib

/-
Verification of the target dependency graph and execution scheduler of
cheribuild (src/pycheribuild/targets.py) against its natural-language
specification.  The registry, the ordering relation, the plan expansion,
the lifecycle state machine and the batch topological sort are embedded
shallowly below; the SimpleProject collaborator (not part of the sources)
is modelled from the spec where its behaviour is needed.
-/

namespace Cheribuild

/-- Python str.startswith, applied to the code-point sequences of the two
strings (name.startswith("run") in Target.__lt__). -/
def pyStartsWith (s pre : String) : Bool :=
  List.isPrefixOf pre.toList s.toList

/-- Lexicographic code-point comparison of two character lists, the order
Python uses when sorting strings. -/
def lexLt : List Char → List Char → Bool
  | [], [] => false
  | [], _ :: _ => true
  | _ :: _, [] => false
  | a :: xs, b :: ys =>
    if a.val < b.val then true
    else if b.val < a.val then false
    else lexLt xs ys

/-- Python < on strings (code-point lexicographic order). -/
def pyStrLt (a b : String) : Bool :=
  lexLt a.toList b.toList

/-- Insert a string into a list so that every strictly smaller element stays
in front of it. -/
def insertStr (a : String) : List String → List String
  | [] => [a]
  | b :: l => if pyStrLt b a then b :: insertStr a l else a :: b :: l

/-- Ascending sort of a list of strings; extensionally equal to Python
sorted() on strings because pyStrLt is a total strict order. -/
def pySortedStrs : List String → List String
  | [] => []
  | a :: l => insertStr a (pySortedStrs l)

/-- Concatenation of a list of lists (functools.reduce over list union is
consumed only through membership, so a concatenation is an exact model). -/
def concatAll {α : Type} : List (List α) → List α
  | [] => []
  | l :: ls => l ++ concatAll ls

/-- Insertion of an element at a given position of a list (the shift CPython
performs at the end of each binarysort step). -/
def insertAt {α : Type} : Nat → α → List α → List α
  | 0, a, l => a :: l
  | _ + 1, a, [] => [a]
  | n + 1, a, x :: l => x :: insertAt n a l

/-- Python dict lookup d[k] for a dict represented as an insertion-ordered
association list. -/
def pyDictGet {β : Type} : List (String × β) → String → Option β
  | [], _ => none
  | (k', v) :: rest, k => if k' = k then some v else pyDictGet rest k

/-- Python dict assignment d[k] = v: an existing key keeps its position and
gets the new value, a new key is appended at the end. -/
def pyDictSet {β : Type} : List (String × β) → String → β → List (String × β)
  | [], k, v => [(k, v)]
  | (k', v') :: rest, k, v =>
    if k' = k then (k, v) :: rest else (k', v') :: pyDictSet rest k v

/-- CrossCompileTarget enum of config/chericonfig.py. -/
inductive CrossCompileTarget
  | NATIVE
  | MIPS
  | CHERI
  | RISCV
deriving DecidableEq, Repr

/-- Python str() of a CrossCompileTarget member (the default Enum rendering
used by the LookupError message of MultiArchTargetAlias.get_real_target). -/
def CrossCompileTarget.pyStr : CrossCompileTarget → String
  | .NATIVE => "CrossCompileTarget.NATIVE"
  | .MIPS => "CrossCompileTarget.MIPS"
  | .CHERI => "CrossCompileTarget.CHERI"
  | .RISCV => "CrossCompileTarget.RISCV"

/-- Modelled from the spec: the class-level attributes of the SimpleProject
collaborator (its module is not among the sources; spec section 6 lists the
consumed surface).  recursive_deps is the flat transitive dependency name
set returned by recursive_dependencies(config) and cached by
_cached_dependencies(); the same names are what allDependencyNames()
reports.  direct_deps is directDependencyNames().  The three flags are
dependenciesMustBeBuilt, isAlias and is_sdk_target.  Dependencies are kept
as names: the registry owns exactly one Target per name, so membership of a
Target object in a dependency list coincides with membership of its name. -/
structure ProjectClass where
  recursive_deps : List String
  direct_deps : List String
  dependenciesMustBeBuilt : Bool
  isAlias : Bool
  is_sdk_target : Bool
deriving DecidableEq, Repr

/-- Project class with no dependencies and no flags set. -/
def ProjectClass.empty : ProjectClass :=
  ⟨[], [], false, false, false⟩

/-- Target of targets.py: a name plus its project class.  Identity of the
Python object is modelled by structural equality, faithful because the
registry holds one Target per name. -/
structure Target where
  name : String
  projectClass : ProjectClass
deriving DecidableEq, Repr

/-- Registry contents used to resolve dependency names back to Target
objects (in Python recursive_dependencies hands out the registered Target
objects directly). -/
abbrev Catalog := List (String × ProjectClass)

/-- Resolution of a dependency name against the catalog; unregistered names
fall back to an empty project class (the validation pass of the scheduler
rules them out before any call modelled here). -/
def Catalog.resolve (cat : Catalog) (n : String) : Target :=
  ⟨n, (pyDictGet cat n).getD ProjectClass.empty⟩

/-- Reserved name word of the run tie-break of Target.__lt__. -/
def runWord : String := "run"

/-- Reserved name word of the disk-image tie-break of Target.__lt__. -/
def diskImageWord : String := "disk-image"

/-- Target.__lt__ of targets.py lines 119-141: dependency containment
first, then the run and disk-image name tie-breaks, else not less. -/
def Target.lt (self other : Target) : Bool :=
  if other.projectClass.recursive_deps.contains self.name then true
  else if self.projectClass.recursive_deps.contains other.name then false
  else if pyStartsWith other.name runWord && !(pyStartsWith self.name runWord) then true
  else if pyStartsWith self.name runWord then false
  else if pyStartsWith other.name diskImageWord && !(pyStartsWith self.name diskImageWord) then true
  else if pyStartsWith self.name diskImageWord then false
  else false

/-- CPython binarysort binary search: the loop computing the insertion
position of the pivot within xs between indices left and right, probing
mid = left + (right - left)/2 and comparing pivot < xs[mid].  The interval
shrinks by at least one per step, so the fuel argument, passed as the
initial interval length at every call site, never runs out before the loop
exit left = right is reached. -/
def binsearchPos {α : Type} (lt : α → α → Bool) (pivot : α) (xs : List α) :
    Nat → Nat → Nat → Nat
  | 0, left, _ => left
  | fuel + 1, left, right =>
    if left < right then
      let mid := left + (right - left) / 2
      if lt pivot (xs.getD mid pivot) then binsearchPos lt pivot xs fuel left mid
      else binsearchPos lt pivot xs fuel (mid + 1) right
    else left

/-- CPython binarysort: every remaining element is inserted into the sorted
prefix at the position its binary search returns. -/
def binsort {α : Type} (lt : α → α → Bool) : List α → List α → List α
  | acc, [] => acc
  | acc, x :: rest =>
    binsort lt (insertAt (binsearchPos lt x acc acc.length 0 acc.length) x acc) rest

/-- CPython count_run, ascending case: length of the maximal prefix with no
element strictly below its predecessor. -/
def runAsc {α : Type} (lt : α → α → Bool) : α → List α → Nat
  | _, [] => 0
  | prev, x :: rest => if lt x prev then 0 else 1 + runAsc lt x rest

/-- CPython count_run, descending case: length of the maximal strictly
descending prefix. -/
def runDesc {α : Type} (lt : α → α → Bool) : α → List α → Nat
  | _, [] => 0
  | prev, x :: rest => if lt x prev then 1 + runDesc lt x rest else 0

/-- CPython count_run: the initial natural run of the list and whether it
is descending. -/
def count_run {α : Type} (lt : α → α → Bool) : List α → Nat × Bool
  | [] => (0, false)
  | [_] => (1, false)
  | a :: b :: rest =>
    if lt b a then (2 + runDesc lt b rest, true) else (2 + runAsc lt b rest, false)

/-- Python sorted() as executed by CPython timsort on fewer than 64
elements (every list the scheduler sorts in this development is far
shorter): minrun equals the length, so the initial run is detected, a
descending run is reversed, and the rest is folded in by binarysort; no
merge step ever runs. -/
def py_sorted {α : Type} (lt : α → α → Bool) (l : List α) : List α :=
  match l with
  | [] => []
  | [a] => [a]
  | _ :: _ :: _ =>
    let kd := count_run lt l
    let run := if kd.2 then (l.take kd.1).reverse else l.take kd.1
    binsort lt run (l.drop kd.1)

/-- Deduplication keeping the first occurrence of each element, the effect
of inserting the sorted list into an OrderedDict and reading its keys. -/
def dedupKeepFirst {α : Type} [DecidableEq α] (seen : List α) : List α → List α
  | [] => []
  | x :: rest =>
    if x ∈ seen then dedupKeepFirst seen rest
    else x :: dedupKeepFirst (x :: seen) rest

/-- TargetManager.sort_in_dependency_order: stable sort under Target.__lt__
followed by first-occurrence deduplication. -/
def sort_in_dependency_order (targets : List Target) : List Target :=
  dedupKeepFirst [] (py_sorted Target.lt targets)

/-- Configuration values consumed by the plan expansion (spec section 6);
verbose only controls logging and is omitted. -/
structure CheriConfig where
  includeDependencies : Bool
  skipSdk : Bool
deriving DecidableEq, Repr

/-- Dependency names added for one explicitly chosen target, following the
first-match policy chain of TargetManager.get_all_targets. -/
def depsToAdd (config : CheriConfig) (t : Target) : List String :=
  if config.includeDependencies then t.projectClass.recursive_deps
  else if t.projectClass.dependenciesMustBeBuilt then t.projectClass.recursive_deps
  else if t.projectClass.isAlias then t.projectClass.direct_deps
  else []

/-- The target itself followed by its added dependencies, each dependency
dropped when --skip-sdk is active and the dependency is an SDK target. -/
def chosenFor (cat : Catalog) (config : CheriConfig) (t : Target) : List Target :=
  t :: ((depsToAdd config t).map (Catalog.resolve cat)).filter
        (fun dep => !(config.skipSdk && dep.projectClass.is_sdk_target))

/-- The chosen_targets list accumulated over all explicit targets. -/
def chosenConcat (cat : Catalog) (config : CheriConfig) : List Target → List Target
  | [] => []
  | t :: ts => chosenFor cat config t ++ chosenConcat cat config ts

/-- TargetManager.get_all_targets: expansion of the explicit targets
followed by sort_in_dependency_order. -/
def get_all_targets (cat : Catalog) (explicit_targets : List Target)
    (config : CheriConfig) : List Target :=
  sort_in_dependency_order (chosenConcat cat config explicit_targets)

/-- TargetManager.addTarget: a plain dict assignment under the target name,
with no occupancy check. -/
def addTarget (m : List (String × Target)) (t : Target) : List (String × Target) :=
  pyDictSet m t.name t

/-- MultiArchTarget: an architecture-specialized target (name plus its
bound architecture; the project class plays no role in resolution). -/
structure MultiArchTarget where
  name : String
  target_arch : CrossCompileTarget
deriving DecidableEq, Repr

/-- MultiArchTargetAlias together with the two class-level values its
resolution consults.  Modelled from the spec: default_architecture and the
default returned by get_crosscompile_target(config) live on the missing
SimpleProject class (spec sections 4.3 and 6); the spec requires every
alias-backed project type to declare a default, so the latter is total. -/
structure MultiArchTargetAlias where
  name : String
  default_architecture : Option CrossCompileTarget
  get_crosscompile_target : CrossCompileTarget
  derived_targets : List MultiArchTarget
deriving DecidableEq, Repr

/-- MultiArchTargetAlias.get_real_target: fall back to the project type
default when no architecture is given, then linearly scan the registered
variants; no match raises a LookupError whose message is the fixed text
followed by str(cross_target). -/
def MultiArchTargetAlias.get_real_target (al : MultiArchTargetAlias)
    (cross_target : Option CrossCompileTarget) : Except String MultiArchTarget :=
  let ct := match cross_target with
    | none => al.get_crosscompile_target
    | some c => c
  match al.derived_targets.find? (fun tgt => tgt.target_arch == ct) with
  | some tgt => Except.ok tgt
  | none => Except.error ("Could not find target for " ++ CrossCompileTarget.pyStr ct)

/-- The alias branch of TargetManager.get_target: when no architecture was
passed and the project class declares a default architecture, that default
is used; then get_real_target resolves. -/
def get_target_of_alias (al : MultiArchTargetAlias)
    (arch : Option CrossCompileTarget) : Except String MultiArchTarget :=
  match arch, al.default_architecture with
  | none, some d => MultiArchTargetAlias.get_real_target al (some d)
  | a, _ => MultiArchTargetAlias.get_real_target al a

/-- Contiguous-sublist test: pat occurs as a prefix of some suffix. -/
def listInfixTest {α : Type} [BEq α] (pat : List α) : List α → Bool
  | [] => List.isPrefixOf pat []
  | x :: rest => List.isPrefixOf pat (x :: rest) || listInfixTest pat rest

/-- Substring test on code points, used to inspect error messages. -/
def strContains (s pat : String) : Bool :=
  listInfixTest pat.toList s.toList

/-- Mutable per-Target state of the lifecycle: _completed, _tests_have_run,
the cached project instance (identified by the counter value at creation)
and _creating_project. -/
structure TargetState where
  completed : Bool
  tests_have_run : Bool
  project : Option Nat
  creating_project : Bool
deriving DecidableEq, Repr

/-- Failures the lifecycle can raise: the RuntimeError of create_project
while instantiating_targets_should_warn holds, its cycle assertion, and
the project-initialized assertion of execute. -/
inductive LifecycleError
  | prematureInstantiation
  | creatingProjectAssert
  | missingProjectAssert
deriving DecidableEq, Repr

/-- Target.create_project: asserts no creation cycle, raises while the
instantiation guard is up, else marks _creating_project and returns a new
project instance (identified by fresh). -/
def create_project (warn_guard : Bool) (fresh : Nat) (s : TargetState) :
    Except LifecycleError (TargetState × Nat) :=
  if s.creating_project then Except.error LifecycleError.creatingProjectAssert
  else if warn_guard then Except.error LifecycleError.prematureInstantiation
  else Except.ok ({s with creating_project := true}, fresh)

/-- Target.get_or_create_project: return the cached instance, creating and
caching it on first demand. -/
def get_or_create_project (warn_guard : Bool) (fresh : Nat) (s : TargetState) :
    Except LifecycleError (TargetState × Nat) :=
  match s.project with
  | some p => Except.ok (s, p)
  | none =>
    match create_project warn_guard fresh s with
    | Except.error e => Except.error e
    | Except.ok (s', p) => Except.ok ({s' with project := some p}, p)

/-- Target.checkSystemDeps: immediately returns once the target completed,
else obtains the project and performs one system-dependency validation; the
second component counts the validations performed by the call. -/
def checkSystemDeps (warn_guard : Bool) (fresh : Nat) (s : TargetState) :
    Except LifecycleError (TargetState × Nat) :=
  if s.completed then Except.ok (s, 0)
  else
    match get_or_create_project warn_guard fresh s with
    | Except.error e => Except.error e
    | Except.ok (s', _) => Except.ok (s', 1)

/-- n successive calls of checkSystemDeps on the same target, summing the
validations the calls perform. -/
def checkSystemDepsN (warn_guard : Bool) : Nat → Nat → TargetState →
    Except LifecycleError (TargetState × Nat)
  | _, 0, s => Except.ok (s, 0)
  | fresh, n + 1, s =>
    match checkSystemDeps warn_guard fresh s with
    | Except.error e => Except.error e
    | Except.ok (s', k) =>
      match checkSystemDepsN warn_guard (fresh + 1) n s' with
      | Except.error e => Except.error e
      | Except.ok (s'', m) => Except.ok (s'', k + m)

/-- Observable outcome of one Target.execute call: the already-executed
warning, or the build side effect (project.process()). -/
inductive ExecEffect
  | warned
  | built
deriving DecidableEq, Repr

/-- Target.execute: warn and return when already completed, assert the
project was initialized by checkSystemDeps, else run the build and set
_completed. -/
def Target.execute (s : TargetState) : Except LifecycleError (TargetState × ExecEffect) :=
  if s.completed then Except.ok (s, ExecEffect.warned)
  else
    match s.project with
    | none => Except.error LifecycleError.missingProjectAssert
    | some _ => Except.ok ({s with completed := true}, ExecEffect.built)

/-- Values stored in the dependency sets of topologicalSort: the sets hold
Target objects while the peeled waves hold name strings; Python equality
across the two kinds is always false. -/
inductive PyObj
  | target (t : Target)
  | str (s : String)
deriving DecidableEq, Repr

/-- Target.get_dependencies: the project class recursive dependencies
resolved to Target objects.  Modelled from the spec: the underlying
recursive_dependencies of SimpleProject (spec section 6) is the flat
transitive dependency name set per class. -/
def get_dependencies (cat : Catalog) (t : Target) : List Target :=
  t.projectClass.recursive_deps.map (Catalog.resolve cat)

/-- Modelled from the spec: SimpleProject.allDependencyNames(), the names
of all (transitive) dependencies of the class. -/
def allDependencyNames (t : Target) : List String :=
  t.projectClass.recursive_deps

/-- The dict entry topologicalSort builds per target: its name mapped to
the set of its dependency Target objects. -/
def topoEntry (cat : Catalog) (t : Target) : String × List PyObj :=
  (t.name, (get_dependencies cat t).map PyObj.target)

/-- The initial data dict of topologicalSort\x3a name to dependency set, in
input order, later entries of a duplicate name overwriting earlier ones. -/
def topoData (cat : Catalog) (targets : List Target) : List (String × List PyObj) :=
  targets.foldl (fun d t => pyDictSet d t.name ((get_dependencies cat t).map PyObj.target)) []

/-- The ordered set of one loop iteration of topologicalSort: the names of
the entries whose dependency set is empty. -/
def topoWave (data : List (String × List PyObj)) : List String :=
  (data.filter (fun p => p.2.isEmpty)).map Prod.fst

/-- The data dict rebuilt at the end of one loop iteration: entries named
in the wave are dropped and the wave (a set of name strings) is subtracted
from every remaining dependency set (sets of Target objects). -/
def topoStep (data : List (String × List PyObj)) : List (String × List PyObj) :=
  (data.filter (fun p => !((topoWave data).contains p.1))).map
    (fun p => (p.1, p.2.filter (fun d => !((topoWave data).any (fun o => d == PyObj.str o)))))

/-- The while loop of topologicalSort with explicit fuel: peel the set of
zero-dependency names as a wave, rebuild the data via topoStep, until no
wave can be peeled; returns the waves and the final unresolved data
(nonempty final data is the state in which the cyclic-dependency assertion
fires).  topoLoopFuel_total shows fuel length + 1 always suffices, so the
fuel is a termination certificate, not a semantic restriction. -/
def topoLoopFuel : Nat → List (String × List PyObj) →
    Option (List (List String) × List (String × List PyObj))
  | 0, _ => none
  | fuel + 1, data =>
    if (topoWave data).isEmpty then some ([], data)
    else
      match topoLoopFuel fuel (topoStep data) with
      | none => none
      | some (waves, final) => some (pySortedStrs (topoWave data) :: waves, final)

/-- TargetManager.topologicalSort: build the name-to-dependency-set dict;
any dependency name absent from it makes the code read the nonexistent
attribute Target.dependencies and crash; otherwise run the peeling loop. -/
def topologicalSort (cat : Catalog) (targets : List Target) :
    Except String (List (List String) × List (String × List PyObj)) :=
  let data := topoData cat targets
  if (concatAll (targets.map allDependencyNames)).all (fun n => (pyDictGet data n).isSome) then
    match topoLoopFuel (data.length + 1) data with
    | some r => Except.ok r
    | none => Except.error ("fuel exhausted: unreachable by topoLoopFuel_total")
  else Except.error ("AttributeError: Target object has no attribute dependencies")

/- Concrete catalogs, configurations, targets and states instantiating the
claims. -/

/-- Project class with no dependencies and no flags. -/
def pcNone : ProjectClass := ProjectClass.empty

/-- Project class of a target that transitively depends on llvm. -/
def pcCheriBSD : ProjectClass := ⟨["llvm"], [], false, false, false⟩

/-- Target cheribsd, transitively depending on llvm. -/
def tCheriBSD : Target := ⟨"cheribsd", pcCheriBSD⟩

/-- Unrelated target foo. -/
def tFoo : Target := ⟨"foo", pcNone⟩

/-- Dependency-free target llvm. -/
def tLLVM : Target := ⟨"llvm", pcNone⟩

/-- Catalog of the plan-ordering instance. -/
def catC1 : Catalog := [("cheribsd", pcCheriBSD), ("foo", pcNone), ("llvm", pcNone)]

/-- Configuration with neither --include-dependencies nor --skip-sdk. -/
def cfgPlain : CheriConfig := ⟨false, false⟩

/-- SDK-flagged project class depending on d2. -/
def pcSdkRoot : ProjectClass := ⟨["d2"], [], false, false, true⟩

/-- Project class of the chain head t with transitive closure sdk-root, d2. -/
def pcTopT : ProjectClass := ⟨["sdk-root", "d2"], [], false, false, false⟩

/-- Chain head t of the SDK-pruning instance. -/
def tTop : Target := ⟨"t", pcTopT⟩

/-- SDK-class dependency d1 of the chain. -/
def tSdkRoot : Target := ⟨"sdk-root", pcSdkRoot⟩

/-- Transitive, non-SDK dependency d2 of the chain. -/
def tD2 : Target := ⟨"d2", pcNone⟩

/-- Catalog of the SDK-pruning chain t to sdk-root to d2. -/
def catC2 : Catalog := [("t", pcTopT), ("sdk-root", pcSdkRoot), ("d2", pcNone)]

/-- Configuration with --include-dependencies and --skip-sdk. -/
def cfgSkipSdk : CheriConfig := ⟨true, true⟩

/-- Name of the d2 target. -/
def nmD2 : String := "d2"

/-- First target registered under the name foo. -/
def tFooOld : Target := ⟨"foo", pcCheriBSD⟩

/-- Second, different target registered under the same name foo. -/
def tFooNew : Target := ⟨"foo", pcNone⟩

/-- The contested registry name. -/
def nmFoo : String := "foo"

/-- Native variant registered under the libcxx alias. -/
def variantNative : MultiArchTarget := ⟨"libcxx-native", CrossCompileTarget.NATIVE⟩

/-- CHERI variant registered under the libcxx alias. -/
def variantCheri : MultiArchTarget := ⟨"libcxx-cheri", CrossCompileTarget.CHERI⟩

/-- The libcxx alias with native default and variants for native and cheri. -/
def libcxxAlias : MultiArchTargetAlias :=
  ⟨"libcxx", some CrossCompileTarget.NATIVE, CrossCompileTarget.NATIVE,
    [variantNative, variantCheri]⟩

/-- The LookupError message produced for the unregistered riscv variant. -/
def riscvErrMsg : String := "Could not find target for CrossCompileTarget.RISCV"

/-- Name of the alias. -/
def nmLibcxx : String := "libcxx"

/-- Fresh target state (after construction or reset). -/
def sFresh : TargetState := ⟨false, false, none, false⟩

/-- State after checkSystemDeps created and cached project instance 0. -/
def sReady : TargetState := ⟨false, false, some 0, true⟩

/-- State after the target executed. -/
def sDone : TargetState := ⟨true, false, some 0, true⟩

/-- Project class of a target transitively depending on a run target. -/
def pcNeedsRun : ProjectClass := ⟨["run-cheribsd"], [], false, false, false⟩

/-- A target whose name carries the reserved run word. -/
def tRunCheriBSD : Target := ⟨"run-cheribsd", pcNone⟩

/-- Target x depending on the run target. -/
def tNeedsRun : Target := ⟨"x", pcNeedsRun⟩

/-- Ordinary target a, unrelated to the others. -/
def tPlainA : Target := ⟨"a", pcNone⟩

/-- Catalog of the tie-break instance. -/
def catC8 : Catalog := [("run-cheribsd", pcNone), ("x", pcNeedsRun), ("a", pcNone)]

/-- Project class of cycle member A. -/
def pcA : ProjectClass := ⟨["B"], [], false, false, false⟩

/-- Project class of cycle member B. -/
def pcB : ProjectClass := ⟨["C"], [], false, false, false⟩

/-- Project class of cycle member C. -/
def pcC : ProjectClass := ⟨["A"], [], false, false, false⟩

/-- Cycle member A. -/
def tA : Target := ⟨"A", pcA⟩

/-- Cycle member B. -/
def tB : Target := ⟨"B", pcB⟩

/-- Cycle member C. -/
def tC : Target := ⟨"C", pcC⟩

/-- Catalog of the dependency cycle A to B to C to A. -/
def catC9 : Catalog := [("A", pcA), ("B", pcB), ("C", pcC)]

/-- Project class of X, depending on Y only. -/
def pcX : ProjectClass := ⟨["Y"], [], false, false, false⟩

/-- Target X of the acyclic pair. -/
def tX : Target := ⟨"X", pcX⟩

/-- Target Y of the acyclic pair. -/
def tY : Target := ⟨"Y", pcNone⟩

/-- Catalog of the acyclic graph X to Y. -/
def catC10 : Catalog := [("X", pcX), ("Y", pcNone)]

/- Helper lemmas. -/

/-- Inserting at any position is a permutation of consing in front. -/
theorem perm_insertAt {α : Type} : ∀ (n : Nat) (a : α) (l : List α),
    List.Perm (insertAt n a l) (a :: l)
  | 0, _, _ => List.Perm.refl _
  | _ + 1, a, [] => List.Perm.refl _
  | n + 1, a, x :: l =>
    (((perm_insertAt n a l).cons x).trans (List.Perm.swap a x l))

/-- binarysort permutes the concatenation of its prefix and its input. -/
theorem perm_binsort {α : Type} (lt : α → α → Bool) : ∀ (rest acc : List α),
    List.Perm (binsort lt acc rest) (acc ++ rest)
  | [], acc => by simp [binsort]
  | x :: rest, acc => by
    simp only [binsort]
    have h1 := perm_binsort lt rest
      (insertAt (binsearchPos lt x acc acc.length 0 acc.length) x acc)
    have h2 := (perm_insertAt (binsearchPos lt x acc acc.length 0 acc.length) x acc).append_right rest
    exact h1.trans (h2.trans List.perm_middle.symm)

/-- The run-plus-binarysort stage permutes the whole list. -/
theorem perm_sort_core {α : Type} (lt : α → α → Bool) (l : List α) (k : Nat) (d : Bool) :
    List.Perm (binsort lt (if d then (l.take k).reverse else l.take k) (l.drop k)) l := by
  have h1 := perm_binsort lt (l.drop k) (if d then (l.take k).reverse else l.take k)
  have hrun : List.Perm (if d then (l.take k).reverse else l.take k) (l.take k) := by
    cases d
    · exact List.Perm.refl _
    · exact List.reverse_perm _
  have h2 := hrun.append_right (l.drop k)
  have h3 : l.take k ++ l.drop k = l := List.take_append_drop k l
  rw [h3] at h2
  exact h1.trans h2

/-- py_sorted permutes its input. -/
theorem perm_py_sorted {α : Type} (lt : α → α → Bool) : ∀ (l : List α),
    List.Perm (py_sorted lt l) l
  | [] => List.Perm.refl _
  | [a] => List.Perm.refl _
  | a :: b :: rest =>
    perm_sort_core lt (a :: b :: rest) (count_run lt (a :: b :: rest)).1
      (count_run lt (a :: b :: rest)).2

/-- Membership across first-occurrence deduplication. -/
theorem mem_dedupKeepFirst {α : Type} [DecidableEq α] : ∀ (l seen : List α) (x : α),
    x ∈ dedupKeepFirst seen l ↔ (x ∈ l ∧ x ∉ seen)
  | [], seen, x => by simp [dedupKeepFirst]
  | y :: rest, seen, x => by
    by_cases hy : y ∈ seen
    · rw [dedupKeepFirst, if_pos hy, mem_dedupKeepFirst rest seen x]
      constructor
      · exact fun h => ⟨List.mem_cons.mpr (Or.inr h.1), h.2⟩
      · rintro ⟨h1, h2⟩
        rcases List.mem_cons.mp h1 with h | h
        · exact absurd (h ▸ hy) h2
        · exact ⟨h, h2⟩
    · rw [dedupKeepFirst, if_neg hy]
      constructor
      · intro h
        rcases List.mem_cons.mp h with h | h
        · exact ⟨List.mem_cons.mpr (Or.inl h), h ▸ hy⟩
        · have := (mem_dedupKeepFirst rest (y :: seen) x).mp h
          exact ⟨List.mem_cons.mpr (Or.inr this.1),
            fun hx => this.2 (List.mem_cons.mpr (Or.inr hx))⟩
      · rintro ⟨h1, h2⟩
        rcases List.mem_cons.mp h1 with h | h
        · exact List.mem_cons.mpr (Or.inl h)
        · by_cases hxy : x = y
          · exact List.mem_cons.mpr (Or.inl hxy)
          · refine List.mem_cons.mpr (Or.inr ?_)
            exact (mem_dedupKeepFirst rest (y :: seen) x).mpr
              ⟨h, fun hx => (List.mem_cons.mp hx).elim hxy h2⟩

/-- sort_in_dependency_order neither adds nor removes targets. -/
theorem mem_sort_in_dependency_order (l : List Target) (x : Target) :
    x ∈ sort_in_dependency_order l ↔ x ∈ l := by
  unfold sort_in_dependency_order
  rw [mem_dedupKeepFirst]
  simp [(perm_py_sorted Target.lt l).mem_iff]

/-- Membership in the accumulated chosen_targets list. -/
theorem mem_chosenConcat (cat : Catalog) (config : CheriConfig) :
    ∀ (ts : List Target) (x : Target),
    x ∈ chosenConcat cat config ts ↔ ∃ t, t ∈ ts ∧ x ∈ chosenFor cat config t
  | [], x => by simp [chosenConcat]
  | t :: ts, x => by
    rw [chosenConcat, List.mem_append, mem_chosenConcat cat config ts x]
    constructor
    · rintro (h | ⟨u, hu, hx⟩)
      · exact ⟨t, List.mem_cons.mpr (Or.inl rfl), h⟩
      · exact ⟨u, List.mem_cons.mpr (Or.inr hu), hx⟩
    · rintro ⟨u, hu, hx⟩
      rcases List.mem_cons.mp hu with h | h
      · exact Or.inl (h ▸ hx)
      · exact Or.inr ⟨u, h, hx⟩

/-- Dict lookup after dict assignment under the same key. -/
theorem pyDictGet_pyDictSet_same {β : Type} : ∀ (m : List (String × β)) (k : String) (v : β),
    pyDictGet (pyDictSet m k v) k = some v
  | [], k, v => by simp [pyDictSet, pyDictGet]
  | (k', v') :: rest, k, v => by
    by_cases h : k' = k
    · simp [pyDictSet, pyDictGet, h]
    · simp only [pyDictSet, if_neg h, pyDictGet]
      exact pyDictGet_pyDictSet_same rest k v

/-- Assignment of an unused key appends the binding at the end. -/
theorem pyDictSet_of_not_mem_keys {β : Type} :
    ∀ (m : List (String × β)) (k : String) (v : β),
    k ∉ m.map Prod.fst → pyDictSet m k v = m ++ [(k, v)]
  | [], k, v, _ => rfl
  | (k', v') :: rest, k, v, h => by
    have hk : k' ≠ k := by
      intro he
      exact h (he ▸ List.mem_cons.mpr (Or.inl rfl))
    have hrest : k ∉ rest.map Prod.fst := fun hm => h (List.mem_cons.mpr (Or.inr hm))
    simp [pyDictSet, hk, pyDictSet_of_not_mem_keys rest k v hrest]

/-- Lookup succeeds exactly on the stored keys. -/
theorem pyDictGet_isSome_of_mem_keys {β : Type} :
    ∀ (m : List (String × β)) (n : String),
    n ∈ m.map Prod.fst → (pyDictGet m n).isSome = true
  | [], n, h => by simp at h
  | (k', v') :: rest, n, h => by
    by_cases hk : k' = n
    · simp [pyDictGet, hk]
    · simp only [pyDictGet, if_neg hk]
      rcases List.mem_cons.mp h with he | hm
      · exact absurd he.symm hk
      · rcases List.mem_map.mp hm with ⟨p, hp, hpn⟩
        exact pyDictGet_isSome_of_mem_keys rest n (hpn ▸ List.mem_map_of_mem Prod.fst hp)

/-- Membership across concatAll. -/
theorem mem_concatAll {α : Type} : ∀ (ls : List (List α)) (x : α),
    x ∈ concatAll ls ↔ ∃ l, l ∈ ls ∧ x ∈ l
  | [], x => by simp [concatAll]
  | l :: ls, x => by
    rw [concatAll, List.mem_append, mem_concatAll ls x]
    constructor
    · rintro (h | ⟨u, hu, hx⟩)
      · exact ⟨l, List.mem_cons.mpr (Or.inl rfl), h⟩
      · exact ⟨u, List.mem_cons.mpr (Or.inr hu), hx⟩
    · rintro ⟨u, hu, hx⟩
      rcases List.mem_cons.mp hu with h | h
      · exact Or.inl (h ▸ hx)
      · exact Or.inr ⟨u, h, hx⟩

/-- Two entries of an association list with distinct keys coincide when
their keys do. -/
theorem entry_eq_of_nodup_keys {β : Type} :
    ∀ {l : List (String × β)}, (l.map Prod.fst).Nodup →
    ∀ {p q : String × β}, p ∈ l → q ∈ l → p.1 = q.1 → p = q := by
  intro l
  induction l with
  | nil => intro _ p q hp; cases hp
  | cons y rest ih =>
    intro hnd p q hp hq hpq
    rw [List.map_cons, List.nodup_cons] at hnd
    rcases List.mem_cons.mp hp with hp1 | hp1 <;> rcases List.mem_cons.mp hq with hq1 | hq1
    · exact hp1.trans hq1.symm
    · exfalso
      apply hnd.1
      have hkm : q.1 ∈ rest.map Prod.fst := List.mem_map_of_mem Prod.fst hq1
      rw [← hpq, hp1] at hkm
      exact hkm
    · exfalso
      apply hnd.1
      have hkm : p.1 ∈ rest.map Prod.fst := List.mem_map_of_mem Prod.fst hp1
      rw [hpq, hq1] at hkm
      exact hkm
    · exact ih hnd.2 hp1 hq1 hpq

/-- Filtering strictly shortens a list that has a failing member. -/
theorem length_filter_lt {α : Type} (p : α → Bool) {l : List α} {x : α}
    (hx : x ∈ l) (hpx : p x = false) : (l.filter p).length < l.length :=
  List.length_filter_lt_length_iff_exists.mpr ⟨x, hx, by simp [hpx]⟩

/-- Boolean membership agrees with membership for decidable equality. -/
theorem contains_iff_mem {α : Type} [DecidableEq α] {l : List α} {a : α} :
    l.contains a = true ↔ a ∈ l := by
  rw [List.contains, List.elem_iff]

/-- find? misses when the predicate fails everywhere. -/
theorem find?_eq_none_of_all_false {α : Type} {p : α → Bool} {l : List α}
    (h : ∀ x ∈ l, p x = false) : l.find? p = none := by
  rw [List.find?_eq_none]
  intro x hx
  simp [h x hx]

/-- A non-completed target with a cached project: checkSystemDeps leaves the
state alone and validates once. -/
theorem checkSystemDeps_eq_of_some {w : Bool} {f : Nat} {s : TargetState} {p : Nat}
    (h0 : s.completed = false) (hp : s.project = some p) :
    checkSystemDeps w f s = Except.ok (s, 1) := by
  unfold checkSystemDeps get_or_create_project
  rw [h0, hp]
  simp

/-- A non-completed target with no cached project and no guard: the project
is created and one validation is performed. -/
theorem checkSystemDeps_eq_of_none {w : Bool} {f : Nat} {s : TargetState}
    (h0 : s.completed = false) (hp : s.project = none) (hc : s.creating_project = false)
    (hw : w = false) :
    checkSystemDeps w f s =
      Except.ok ({s with creating_project := true, project := some f}, 1) := by
  unfold checkSystemDeps get_or_create_project create_project
  rw [h0, hp, hc, hw]
  simp

/-- Every successful checkSystemDeps call on a non-completed target performs
exactly one validation and leaves the target non-completed. -/
theorem checkSystemDeps_step {w : Bool} {f : Nat} {s s' : TargetState} {k : Nat}
    (h0 : s.completed = false) (h : checkSystemDeps w f s = Except.ok (s', k)) :
    k = 1 ∧ s'.completed = false := by
  cases hp : s.project with
  | some p =>
    rw [checkSystemDeps_eq_of_some h0 hp] at h
    simp only [Except.ok.injEq, Prod.mk.injEq] at h
    exact ⟨h.2.symm, h.1 ▸ h0⟩
  | none =>
    by_cases hc : s.creating_project = true
    · unfold checkSystemDeps get_or_create_project create_project at h
      rw [h0, hp, hc] at h
      simp at h
    · rw [Bool.not_eq_true] at hc
      by_cases hw : w = true
      · unfold checkSystemDeps get_or_create_project create_project at h
        rw [h0, hp, hc, hw] at h
        simp at h
      · rw [Bool.not_eq_true] at hw
        rw [checkSystemDeps_eq_of_none h0 hp hc hw] at h
        simp only [Except.ok.injEq, Prod.mk.injEq] at h
        refine ⟨h.2.symm, ?_⟩
        rw [← h.1]
        exact h0

/-- n successful calls on a never-completed target validate n times. -/
theorem checkSystemDepsN_count {w : Bool} :
    ∀ (n fr : Nat) (s s' : TargetState) (k : Nat), s.completed = false →
    checkSystemDepsN w fr n s = Except.ok (s', k) → k = n
  | 0, fr, s, s', k, _, h => by
    simp only [checkSystemDepsN, Except.ok.injEq, Prod.mk.injEq] at h
    exact h.2.symm
  | n + 1, fr, s, s', k, h0, h => by
    simp only [checkSystemDepsN] at h
    cases h1 : checkSystemDeps w fr s with
    | error e => simp only [h1] at h; exact Except.noConfusion h
    | ok sk =>
      obtain ⟨s1, k1⟩ := sk
      simp only [h1] at h
      have hstep := checkSystemDeps_step h0 h1
      cases h2 : checkSystemDepsN w (fr + 1) n s1 with
      | error e => simp only [h2] at h; exact Except.noConfusion h
      | ok sm =>
        obtain ⟨s2, m⟩ := sm
        simp only [h2, Except.ok.injEq, Prod.mk.injEq] at h
        have hm := checkSystemDepsN_count n (fr + 1) s1 s2 m hstep.2 h2
        omega

/- Claim theorems. -/

/-- C5 (amended): checkSystemDeps is a no-op after the target has executed,
but before execution every call performs a validation: n successful calls
on a non-executed target validate n times, not once. -/
theorem claim_C5 (w : Bool) (f : Nat) (s : TargetState) :
    (s.completed = true → checkSystemDeps w f s = Except.ok (s, 0)) ∧
    (s.completed = false → ∀ (n fr : Nat) (s' : TargetState) (k : Nat),
      checkSystemDepsN w fr n s = Except.ok (s', k) → k = n) := by
  constructor
  · intro h
    unfold checkSystemDeps
    rw [h]
    simp
  · intro h0 n fr s' k h
    exact checkSystemDepsN_count n fr s s' k h0 h

/-- C5 counterexample: two calls of checkSystemDeps on a fresh, not yet
executed target perform two validations in total, refuting the claim that
repeated calls before execution still validate only once. -/
theorem claim_C5_counterexample :
    checkSystemDepsN false 0 2 sFresh = Except.ok (sReady, 2) ∧ (2 : Nat) ≠ 1 := by
  refine ⟨rfl, ?_⟩
  decide

/-- Witness for C5 at concrete inputs: a completed target state and a fresh
one. -/
theorem claim_C5_witness :
    checkSystemDeps false 0 sDone = Except.ok (sDone, 0) ∧ (2 : Nat) = 2 :=
  ⟨(claim_C5 false 0 sDone).1 rfl, (claim_C5 false 0 sFresh).2 rfl 2 0 sReady 2 rfl⟩

/-- C6 (confirmed): once execute has performed the build side effect, a
second execute call on the resulting state is detected through the
completion flag, returns the warning outcome without failing, performs no
build, and leaves the state unchanged. -/
theorem claim_C6 (s s1 : TargetState)
    (h : Target.execute s = Except.ok (s1, ExecEffect.built)) :
    Target.execute s1 = Except.ok (s1, ExecEffect.warned) := by
  unfold Target.execute at h ⊢
  by_cases hc : s.completed = true
  · rw [hc] at h
    simp at h
  · rw [Bool.not_eq_true] at hc
    rw [hc] at h
    simp only [Bool.false_eq_true, if_false] at h
    cases hp : s.project with
    | none => rw [hp] at h; simp at h
    | some p =>
      rw [hp] at h
      simp only [Except.ok.injEq, Prod.mk.injEq] at h
      rw [← h.1]
      simp

/-- Witness for C6: the state after building from sReady. -/
theorem claim_C6_witness :
    Target.execute sDone = Except.ok (sDone, ExecEffect.warned) :=
  claim_C6 sReady sDone rfl

/-- C7 (confirmed): with the instantiation guard down, the first call of
get_or_create_project creates and caches the project instance, every later
call returns the identical cached instance whatever fresh value it would
have used, and a cached instance is never replaced. -/
theorem claim_C7 (w : Bool) (f f' : Nat) (s : TargetState)
    (hp : s.project = none) (hc : s.creating_project = false) (hw : w = false) :
    (get_or_create_project w f s =
      Except.ok ({s with creating_project := true, project := some f}, f)) ∧
    (get_or_create_project w f' {s with creating_project := true, project := some f} =
      Except.ok ({s with creating_project := true, project := some f}, f)) ∧
    (∀ (s' : TargetState) (p g : Nat), s'.project = some p →
      get_or_create_project w g s' = Except.ok (s', p)) := by
  subst hw
  refine ⟨?_, rfl, ?_⟩
  · unfold get_or_create_project create_project
    rw [hp, hc]
    simp
  · intro s' p g hp'
    unfold get_or_create_project
    rw [hp']

/-- Witness for C7 at the fresh target state. -/
theorem claim_C7_witness :
    (get_or_create_project false 0 sFresh =
      Except.ok ({sFresh with creating_project := true, project := some 0}, 0)) ∧
    (get_or_create_project false 5 {sFresh with creating_project := true, project := some 0} =
      Except.ok ({sFresh with creating_project := true, project := some 0}, 0)) ∧
    (∀ (s' : TargetState) (p g : Nat), s'.project = some p →
      get_or_create_project false g s' = Except.ok (s', p)) :=
  claim_C7 false 0 5 sFresh rfl rfl rfl

/-- C3 (amended): addTarget silently overwrites: after registering t, the
registry maps t.name to t, whatever was stored before, and no error is
raised (the operation is total). -/
theorem claim_C3 (m : List (String × Target)) (t : Target) :
    pyDictGet (addTarget m t) t.name = some t :=
  pyDictGet_pyDictSet_same m t.name t

/-- C3 counterexample: registering a second, different target under the
name foo silently replaces the first; no failure occurs. -/
theorem claim_C3_counterexample :
    addTarget (addTarget [] tFooOld) tFooNew = [(nmFoo, tFooNew)] ∧
    pyDictGet (addTarget (addTarget [] tFooOld) tFooNew) nmFoo = some tFooNew ∧
    tFooNew ≠ tFooOld := by
  refine ⟨rfl, rfl, ?_⟩
  decide

/-- C4 (amended): with no explicit architecture the alias resolves to the
variant of the declared default architecture; with an explicit architecture
to the variant carrying it; and when no registered variant matches, the
lookup error identifies the requested architecture but not the alias name
(the message is exactly the architecture rendering appended to a fixed
text). -/
theorem claim_C4 (al : MultiArchTargetAlias) (d a : CrossCompileTarget)
    (hd : al.default_architecture = some d) :
    (∀ t : MultiArchTarget, get_target_of_alias al none = Except.ok t → t.target_arch = d) ∧
    (∀ (a' : CrossCompileTarget) (t : MultiArchTarget),
      get_target_of_alias al (some a') = Except.ok t → t.target_arch = a') ∧
    (al.derived_targets.all (fun v => !(v.target_arch == a)) = true →
      get_target_of_alias al (some a) =
        Except.error ("Could not find target for " ++ CrossCompileTarget.pyStr a)) := by
  have hreal : ∀ (c : CrossCompileTarget) (t : MultiArchTarget),
      MultiArchTargetAlias.get_real_target al (some c) = Except.ok t → t.target_arch = c := by
    intro c t h
    unfold MultiArchTargetAlias.get_real_target at h
    dsimp only at h
    cases hf : al.derived_targets.find? (fun tgt => tgt.target_arch == c) with
    | none => rw [hf] at h; simp at h
    | some tgt =>
      rw [hf] at h
      simp only [Except.ok.injEq] at h
      have hpred := List.find?_some hf
      rw [← h]
      exact beq_iff_eq.mp hpred
  refine ⟨?_, ?_, ?_⟩
  · intro t h
    unfold get_target_of_alias at h
    rw [hd] at h
    exact hreal d t h
  · intro a' t h
    unfold get_target_of_alias at h
    exact hreal a' t h
  · intro hall
    unfold get_target_of_alias MultiArchTargetAlias.get_real_target
    dsimp only
    have hnone : al.derived_targets.find? (fun tgt => tgt.target_arch == a) = none := by
      apply find?_eq_none_of_all_false
      intro v hv
      have := List.all_eq_true.mp hall v hv
      simpa using this
    rw [hnone]

/-- C4 counterexample: resolving the libcxx alias at the unregistered riscv
architecture produces a lookup error whose message names the requested
architecture but not the alias, refuting the claim that the error
identifies both. -/
theorem claim_C4_counterexample :
    get_target_of_alias libcxxAlias (some CrossCompileTarget.RISCV) =
      Except.error riscvErrMsg ∧
    strContains riscvErrMsg nmLibcxx = false ∧
    strContains riscvErrMsg (CrossCompileTarget.pyStr CrossCompileTarget.RISCV) = true := by
  refine ⟨rfl, ?_, ?_⟩ <;> decide

/-- C2 (amended): with --skip-sdk active, expansion drops every SDK-flagged
dependency itself, so no target beyond the explicit ones carries the SDK
flag in the plan; but because the expansion iterates the flat transitive
closure, a non-SDK transitive dependency reached only through a dropped
SDK-flagged dependency is still added to the plan. -/
theorem claim_C2 (cat : Catalog) (config : CheriConfig) (ts : List Target)
    (x t : Target) (d : String) (hskip : config.skipSdk = true) :
    (x ∈ get_all_targets cat ts config → x ∈ ts ∨ x.projectClass.is_sdk_target = false) ∧
    (t ∈ ts → config.includeDependencies = true → d ∈ t.projectClass.recursive_deps →
      (Catalog.resolve cat d).projectClass.is_sdk_target = false →
      Catalog.resolve cat d ∈ get_all_targets cat ts config) := by
  constructor
  · intro hx
    rw [get_all_targets, mem_sort_in_dependency_order, mem_chosenConcat] at hx
    obtain ⟨u, hu, hxu⟩ := hx
    rw [chosenFor] at hxu
    rcases List.mem_cons.mp hxu with he | hf
    · exact Or.inl (by rw [he]; exact hu)
    · right
      have hp := (List.mem_filter.mp hf).2
      rw [hskip] at hp
      simpa using hp
  · intro ht hinc hd hsdk
    rw [get_all_targets, mem_sort_in_dependency_order, mem_chosenConcat]
    refine ⟨t, ht, ?_⟩
    rw [chosenFor]
    refine List.mem_cons.mpr (Or.inr ?_)
    rw [List.mem_filter]
    constructor
    · apply List.mem_map_of_mem
      rw [depsToAdd, hinc]
      simpa using hd
    · rw [hsdk]
      simp

/-- C2 counterexample: in the chain t to sdk-root (SDK-flagged) to d2, the
plan computed with --skip-sdk excludes sdk-root but still contains d2,
refuting the claim that both are excluded. -/
theorem claim_C2_counterexample :
    get_all_targets catC2 [tTop] cfgSkipSdk = [tD2, tTop] ∧
    tD2 ∈ get_all_targets catC2 [tTop] cfgSkipSdk ∧
    cfgSkipSdk.skipSdk = true ∧
    tSdkRoot.name ∈ tTop.projectClass.recursive_deps ∧
    tD2.name ∈ tSdkRoot.projectClass.recursive_deps ∧
    tSdkRoot.projectClass.is_sdk_target = true ∧
    tD2.projectClass.is_sdk_target = false ∧
    (∀ u ∈ get_all_targets catC2 [tTop] cfgSkipSdk, u.name ≠ tSdkRoot.name) := by
  refine ⟨rfl, ?_, rfl, ?_, ?_, rfl, rfl, ?_⟩ <;> decide

/-- Witness for C2 at the SDK-pruning chain. -/
theorem claim_C2_witness :
    (tSdkRoot ∈ get_all_targets catC2 [tTop] cfgSkipSdk →
      tSdkRoot ∈ [tTop] ∨ tSdkRoot.projectClass.is_sdk_target = false) ∧
    (tTop ∈ [tTop] → cfgSkipSdk.includeDependencies = true →
      nmD2 ∈ tTop.projectClass.recursive_deps →
      (Catalog.resolve catC2 nmD2).projectClass.is_sdk_target = false →
      Catalog.resolve catC2 nmD2 ∈ get_all_targets catC2 [tTop] cfgSkipSdk) :=
  claim_C2 catC2 cfgSkipSdk [tTop] tSdkRoot tTop nmD2 rfl

/-- C1 (code bug exhibited): for the explicit request cheribsd, foo, llvm
without --include-dependencies, the computed plan keeps the input order and
places cheribsd strictly before its transitive dependency llvm, although
the ordering relation itself orders llvm first; the comparison sort only
compares adjacent elements of an apparent ascending run and never compares
the non-adjacent pair. -/
theorem claim_C1_failing_plan :
    get_all_targets catC1 [tCheriBSD, tFoo, tLLVM] cfgPlain = [tCheriBSD, tFoo, tLLVM] ∧
    tLLVM.name ∈ tCheriBSD.projectClass.recursive_deps ∧
    Target.lt tLLVM tCheriBSD = true ∧
    Target.lt tCheriBSD tLLVM = false := by
  refine ⟨rfl, ?_, rfl, rfl⟩
  decide

/-- C8 (code bug exhibited): the plan for the explicit request run-cheribsd,
x, a (where x transitively depends on run-cheribsd and a is unrelated to
both) keeps the input order, so the run-named target run-cheribsd is placed
before the non-run target a although the two are dependency-unrelated and
the tie-break of the ordering relation puts run targets last. -/
theorem claim_C8_failing_plan :
    get_all_targets catC8 [tRunCheriBSD, tNeedsRun, tPlainA] cfgPlain =
      [tRunCheriBSD, tNeedsRun, tPlainA] ∧
    pyStartsWith tRunCheriBSD.name runWord = true ∧
    pyStartsWith tPlainA.name runWord = false ∧
    tPlainA.name ∉ tRunCheriBSD.projectClass.recursive_deps ∧
    tRunCheriBSD.name ∉ tPlainA.projectClass.recursive_deps ∧
    Target.lt tPlainA tRunCheriBSD = true ∧
    Target.lt tRunCheriBSD tPlainA = false := by
  refine ⟨rfl, rfl, rfl, ?_, ?_, rfl, rfl⟩ <;> decide

/-- Witness for C4 at the libcxx alias with default native and requested
riscv. -/
theorem claim_C4_witness :
    (∀ t : MultiArchTarget,
      get_target_of_alias libcxxAlias none = Except.ok t →
      t.target_arch = CrossCompileTarget.NATIVE) ∧
    (∀ (a' : CrossCompileTarget) (t : MultiArchTarget),
      get_target_of_alias libcxxAlias (some a') = Except.ok t → t.target_arch = a') ∧
    (libcxxAlias.derived_targets.all (fun v => !(v.target_arch == CrossCompileTarget.RISCV)) = true →
      get_target_of_alias libcxxAlias (some CrossCompileTarget.RISCV) =
        Except.error ("Could not find target for " ++
          CrossCompileTarget.pyStr CrossCompileTarget.RISCV)) :=
  claim_C4 libcxxAlias CrossCompileTarget.NATIVE CrossCompileTarget.RISCV rfl

/-- A peelable wave strictly shrinks the data dict. -/
theorem topoStep_length_lt {data : List (String × List PyObj)}
    (h : (topoWave data).isEmpty = false) : (topoStep data).length < data.length := by
  have hne : topoWave data ≠ [] := by
    intro he
    rw [he] at h
    simp at h
  obtain ⟨n, hn⟩ := List.exists_mem_of_ne_nil _ hne
  rw [topoWave] at hn
  obtain ⟨p, hp, hpn⟩ := List.mem_map.mp hn
  have hpd := List.mem_filter.mp hp
  rw [topoStep, List.length_map]
  apply length_filter_lt _ hpd.1
  have hc : (topoWave data).contains p.1 = true := by
    rw [contains_iff_mem, topoWave]
    exact List.mem_map_of_mem Prod.fst hp
  simp only [hc, Bool.not_true]

/-- Fuel beyond the dict size always suffices for the peeling loop. -/
theorem topoLoopFuel_suffices :
    ∀ (fuel : Nat) (data : List (String × List PyObj)),
    data.length < fuel → (topoLoopFuel fuel data).isSome = true
  | 0, _, h => absurd h (Nat.not_lt_zero _)
  | fuel + 1, data, h => by
    rw [topoLoopFuel]
    by_cases he : (topoWave data).isEmpty
    · rw [if_pos he]
      rfl
    · rw [if_neg he]
      rw [Bool.not_eq_true] at he
      have hlt := topoStep_length_lt he
      have hfuel : (topoStep data).length < fuel := by omega
      have hrec := topoLoopFuel_suffices fuel (topoStep data) hfuel
      cases hres : topoLoopFuel fuel (topoStep data) with
      | none => rw [hres] at hrec; simp at hrec
      | some r =>
        obtain ⟨waves, final⟩ := r
        rfl

/-- The peeling loop terminates on every input within length + 1 rounds. -/
theorem topoLoopFuel_total (data : List (String × List PyObj)) :
    (topoLoopFuel (data.length + 1) data).isSome = true :=
  topoLoopFuel_suffices (data.length + 1) data (Nat.lt_succ_self _)

/-- A map whose function fixes every member is the identity. -/
theorem map_eq_self_of_eq {α : Type} {f : α → α} :
    ∀ {l : List α}, (∀ x ∈ l, f x = x) → l.map f = l
  | [], _ => rfl
  | x :: rest, h => by
    rw [List.map_cons, h x (List.mem_cons.mpr (Or.inl rfl)),
      map_eq_self_of_eq (fun y hy => h y (List.mem_cons.mpr (Or.inr hy)))]

/-- Python equality between a Target object and a string is always false. -/
theorem target_beq_str (u : Target) (o : String) :
    (PyObj.target u == PyObj.str o) = false := rfl

/-- Folding dict assignments of targets with pairwise distinct, fresh names
appends their entries in order. -/
theorem topoData_foldl_aux (cat : Catalog) :
    ∀ (ts : List Target) (acc : List (String × List PyObj)),
    (∀ t ∈ ts, t.name ∉ acc.map Prod.fst) → (ts.map Target.name).Nodup →
    ts.foldl (fun d t => pyDictSet d t.name ((get_dependencies cat t).map PyObj.target)) acc
      = acc ++ ts.map (topoEntry cat)
  | [], acc, _, _ => by simp
  | t :: ts, acc, hdisj, hnd => by
    rw [List.foldl_cons]
    have hnot : t.name ∉ acc.map Prod.fst := hdisj t (List.mem_cons.mpr (Or.inl rfl))
    rw [pyDictSet_of_not_mem_keys acc t.name _ hnot]
    rw [List.map_cons, List.nodup_cons] at hnd
    have hdisj2 : ∀ u ∈ ts, u.name ∉
        (acc ++ [(t.name, (get_dependencies cat t).map PyObj.target)]).map Prod.fst := by
      intro u hu
      rw [List.map_append, List.mem_append]
      rintro (hacc | hone)
      · exact hdisj u (List.mem_cons.mpr (Or.inr hu)) hacc
      · simp at hone
        exact hnd.1 (hone ▸ List.mem_map_of_mem Target.name hu)
    rw [topoData_foldl_aux cat ts _ hdisj2 hnd.2]
    simp [topoEntry, List.append_assoc]

/-- With pairwise distinct target names the data dict lists one entry per
input target, in order. -/
theorem topoData_eq_map (cat : Catalog) (ts : List Target)
    (h : (ts.map Target.name).Nodup) :
    topoData cat ts = ts.map (topoEntry cat) := by
  rw [topoData, topoData_foldl_aux cat ts [] (by simp) h]
  simp

/-- On a dict with distinct keys whose dependency sets hold only Target
objects, the loop stops after at most one peeled wave: the wave subtraction
(strings against Target objects) never removes a dependency, so the final
unresolved data is exactly the entries with nonempty dependency sets. -/
theorem topoLoop_stops (data : List (String × List PyObj))
    (hkeys : (data.map Prod.fst).Nodup)
    (hvals : ∀ p ∈ data, ∃ l, p.2 = List.map PyObj.target l) :
    ∃ waves, topoLoopFuel (data.length + 1) data =
      some (waves, data.filter (fun p => !p.2.isEmpty)) ∧ waves.length ≤ 1 := by
  by_cases he : (topoWave data).isEmpty
  · refine ⟨[], ?_, by simp⟩
    rw [topoLoopFuel, if_pos he]
    have hall : ∀ p ∈ data, (!p.2.isEmpty) = true := by
      intro p hp
      by_cases hpe : p.2.isEmpty
      · exfalso
        have hmem : p.1 ∈ topoWave data := by
          rw [topoWave]
          exact List.mem_map_of_mem Prod.fst (List.mem_filter.mpr ⟨hp, hpe⟩)
        rw [List.isEmpty_iff] at he
        rw [he] at hmem
        cases hmem
      · rw [Bool.not_eq_true] at hpe
        simp [hpe]
    rw [List.filter_eq_self.mpr hall]
  · rw [Bool.not_eq_true] at he
    have hstep : topoStep data = data.filter (fun p => !p.2.isEmpty) := by
      rw [topoStep]
      have hwave_mem : ∀ p ∈ data, ((topoWave data).contains p.1) = p.2.isEmpty := by
        intro p hp
        by_cases hpe : p.2.isEmpty
        · rw [hpe, contains_iff_mem, topoWave]
          exact List.mem_map_of_mem Prod.fst (List.mem_filter.mpr ⟨hp, hpe⟩)
        · rw [Bool.not_eq_true] at hpe
          rw [hpe]
          by_cases hc : (topoWave data).contains p.1 = true
          · exfalso
            rw [contains_iff_mem, topoWave] at hc
            obtain ⟨q, hq, hq1⟩ := List.mem_map.mp hc
            have hqd := List.mem_filter.mp hq
            have heq := entry_eq_of_nodup_keys hkeys hqd.1 hp hq1
            rw [← heq, hqd.2] at hpe
            cases hpe
          · rw [Bool.not_eq_true] at hc
            exact hc
      have hfe : data.filter (fun p => !((topoWave data).contains p.1))
          = data.filter (fun p => !p.2.isEmpty) :=
        List.filter_congr (fun p hp => by rw [hwave_mem p hp])
      rw [hfe]
      apply map_eq_self_of_eq
      intro p hp
      have hpd := (List.mem_filter.mp hp).1
      obtain ⟨l, hl⟩ := hvals p hpd
      have hfix : p.2.filter
          (fun d => !((topoWave data).any (fun o => d == PyObj.str o))) = p.2 := by
        apply List.filter_eq_self.mpr
        intro d hd
        rw [hl] at hd
        obtain ⟨u, hu, hud⟩ := List.mem_map.mp hd
        rw [← hud]
        have hany : (topoWave data).any (fun o => PyObj.target u == PyObj.str o) = false := by
          rw [List.any_eq_false]
          intro o _
          rw [target_beq_str]
          exact Bool.false_ne_true
        rw [hany]
        rfl
      rw [hfix]
    have hN_wave : topoWave (data.filter (fun p => !p.2.isEmpty)) = [] := by
      rw [topoWave]
      have hnil : (data.filter (fun p => !p.2.isEmpty)).filter (fun p => p.2.isEmpty) = [] := by
        rw [List.filter_eq_nil_iff]
        intro p hp
        have hne2 := (List.mem_filter.mp hp).2
        simp at hne2
        simp [hne2]
      rw [hnil]
      rfl
    have hdata_ne : data ≠ [] := by
      intro hd
      rw [hd] at he
      simp [topoWave] at he
    obtain ⟨p0, data0, hd⟩ := List.exists_cons_of_ne_nil hdata_ne
    have hlen : data.length = data0.length + 1 := by rw [hd]; rfl
    refine ⟨[pySortedStrs (topoWave data)], ?_, by simp⟩
    rw [topoLoopFuel, if_neg (by simp [he]), hstep]
    have hstop : topoLoopFuel data.length (data.filter (fun p => !p.2.isEmpty))
        = some ([], data.filter (fun p => !p.2.isEmpty)) := by
      rw [hlen, topoLoopFuel, hN_wave]
      simp
    rw [hstop]

/-- C9 (confirmed): the batch-topological-sort loop terminates on every
input, and on the dependency cycle A to B to C to A it peels no wave and
stops with all three targets in the unresolved data the cyclic-dependency
assertion reports. -/
theorem claim_C9 :
    (∀ data : List (String × List PyObj),
      (topoLoopFuel (data.length + 1) data).isSome = true) ∧
    topologicalSort catC9 [tA, tB, tC] =
      Except.ok ([], [("A", [PyObj.target tB]), ("B", [PyObj.target tC]),
        ("C", [PyObj.target tA])]) :=
  ⟨topoLoopFuel_total, rfl⟩

/-- C10 (confirmed): for distinct-named input targets whose dependency
names all lie within the input list, the presence of a single nonempty
dependency set forces the cyclic-dependency assertion, acyclic or not: the
final data equals all nonempty-dependency entries (nothing was ever
subtracted, strings never equalling Target objects), it is nonempty, and at
most one wave (the zero-dependency targets) is emitted. -/
theorem claim_C10 (cat : Catalog) (ts : List Target)
    (hnodup : (ts.map Target.name).Nodup)
    (hclosed : ∀ t ∈ ts, ∀ n ∈ t.projectClass.recursive_deps, n ∈ ts.map Target.name)
    (hne : ∃ t ∈ ts, t.projectClass.recursive_deps ≠ []) :
    ∃ waves final, topologicalSort cat ts = Except.ok (waves, final) ∧
      final = (topoData cat ts).filter (fun p => !p.2.isEmpty) ∧
      final ≠ [] ∧ waves.length ≤ 1 := by
  have hdata := topoData_eq_map cat ts hnodup
  have hfst : (Prod.fst ∘ topoEntry cat) = Target.name := rfl
  have hkeys : ((topoData cat ts).map Prod.fst).Nodup := by
    rw [hdata, List.map_map, hfst]
    exact hnodup
  have hvals : ∀ p ∈ topoData cat ts, ∃ l, p.2 = List.map PyObj.target l := by
    intro p hp
    rw [hdata] at hp
    obtain ⟨t, ht, hpt⟩ := List.mem_map.mp hp
    exact ⟨get_dependencies cat t, by rw [← hpt]; rfl⟩
  obtain ⟨waves, hloop, hwlen⟩ := topoLoop_stops (topoData cat ts) hkeys hvals
  have hcheck : (concatAll (ts.map allDependencyNames)).all
      (fun n => (pyDictGet (topoData cat ts) n).isSome) = true := by
    rw [List.all_eq_true]
    intro n hn
    obtain ⟨l, hl, hnl⟩ := (mem_concatAll _ n).mp hn
    obtain ⟨t, ht, hlt⟩ := List.mem_map.mp hl
    have hmem : n ∈ ts.map Target.name := by
      rw [← hlt] at hnl
      exact hclosed t ht n hnl
    apply pyDictGet_isSome_of_mem_keys
    rw [hdata, List.map_map, hfst]
    exact hmem
  refine ⟨waves, (topoData cat ts).filter (fun p => !p.2.isEmpty), ?_, rfl, ?_, hwlen⟩
  · rw [topologicalSort]
    rw [if_pos hcheck, hloop]
  · obtain ⟨t0, ht0, hdep0⟩ := hne
    have hent : topoEntry cat t0 ∈ topoData cat ts := by
      rw [hdata]
      exact List.mem_map_of_mem _ ht0
    apply List.ne_nil_of_mem (a := topoEntry cat t0)
    rw [List.mem_filter]
    refine ⟨hent, ?_⟩
    rw [topoEntry]
    simp [get_dependencies]
    exact hdep0

/-- Witness for C10: the acyclic pair X depending on Y still ends in the
assertion failure, with X unresolved after the single wave containing Y. -/
theorem claim_C10_witness :
    ∃ waves final, topologicalSort catC10 [tX, tY] = Except.ok (waves, final) ∧
      final = (topoData catC10 [tX, tY]).filter (fun p => !p.2.isEmpty) ∧
      final ≠ [] ∧ waves.length ≤ 1 :=
  claim_C10 catC10 [tX, tY] (by decide) (by decide) (by decide)

end Cheribuild
